import Mathlib

set_option autoImplicit false

/-!
Shallow embedding of the tg_bot repository core (src/bot/storage.py,
src/bot/session.py, src/bot/gemini.py, src/bot/handlers.py).

Timestamps (Python `time.time()` floats, a totally ordered time axis) are
modelled as integers `ℤ`; every claim here only ever compares timestamps
and takes integral affine combinations of them (`days*86400`,
`minutes*60`), so the embedding is faithful for these claims.  The retry
backoff `0.8 * attempt`, which is genuinely fractional, is modelled in `ℚ`.
JSON documents are modelled as typed records with exactly the fields the
code writes.  The filesystem backing `JsonStore` is modelled as a list of
files (one entry per path); the scratch-area atomic-replace helper
`_atomic_write` is modelled separately over a raw path-to-contents map so
that interrupted writes can be stated.
-/

namespace TgBot

/-! ## Raw filesystem and `JsonStore._atomic_write` (storage.py lines 52-56) -/

/-- A raw filesystem: a map from path to (fully or partially written) file
contents; `none` means the path does not exist. -/
def FileSys : Type := String → Option String

/-- Writing `content` at path `p` (an `open`/`write` that has reached `content`
so far only touches `p`). -/
def writeFile (fs : FileSys) (p : String) (content : String) : FileSys :=
  fun q => if q = p then some content else fs q

/-- `os.replace(src, dst)`: a single rename installing `src` at `dst`. -/
def os_replace (fs : FileSys) (src dst : String) : FileSys :=
  fun q => if q = dst then fs src else if q = src then none else fs q

/-- The temporary-file name used by `_atomic_write`:
`f"{path.name}.{int(time.time()*1000)}.tmp"` inside the scratch directory. -/
def tmpName (fileName : String) (ms : Int) : String :=
  fileName ++ "." ++ toString ms ++ ".tmp"

/-- `JsonStore._atomic_write`: serialize the full new document to the
temporary file, then install it with a single `os.replace`. -/
def atomic_write (fs : FileSys) (tmp path content : String) : FileSys :=
  os_replace (writeFile fs tmp content) tmp path

/-- All filesystem states an interrupted `_atomic_write` can leave behind, in
order: the initial state, the states in which the temporary file holds any
partial serialization (`chunks` are the successive partial contents), the
state in which the temporary file holds the full document, and the final
state after the rename. -/
def atomic_write_trace (fs : FileSys) (tmp path : String)
    (chunks : List String) (content : String) : List FileSys :=
  fs :: (chunks.map fun c => writeFile fs tmp c)
    ++ [writeFile fs tmp content, atomic_write fs tmp path content]

/-! ## Storage data model (storage.py dataclasses and JSON documents) -/

/-- `DialogIndexEntry` dataclass (storage.py lines 9-18). -/
structure DialogIndexEntry where
  dialog_id : String
  started_at : ℤ
  closed_at : Option ℤ
  title : String
  has_image : Bool
  message_count : Nat
  tokens_estimate : Nat
  warning_shown : Bool
deriving DecidableEq

/-- The `stats` sub-document of a user profile. -/
structure Stats where
  total_requests : Nat
  total_dialogs : Nat
  last_active_at : ℤ
deriving DecidableEq

/-- `UserProfile` JSON document (storage.py lines 21-31 and 80-94). -/
structure UserProfile where
  chat_id : Nat
  username : Option String
  first_name : Option String
  last_name : Option String
  first_seen : ℤ
  last_seen : ℤ
  language : String
  dialogs_index : List DialogIndexEntry
  stats : Stats
deriving DecidableEq

/-- The image metadata assembled by the handler (handlers.py lines 179-185). -/
structure ImageMetaIn where
  file_unique_id : String
  width : Nat
  height : Nat
  size_bytes : Nat
  mime : String
deriving DecidableEq

/-- The `image_meta` stored in a dialog: the handler-supplied fields plus
`caption_text` and `received_at` added by `open_dialog` (storage.py line 147). -/
structure ImageMeta where
  base : ImageMetaIn
  caption_text : Option String
  received_at : ℤ
deriving DecidableEq

/-- One message of a dialog transcript (handlers.py lines 240-249). -/
structure Message where
  message_id : Nat
  timestamp : ℤ
  role : String
  type : String
  text : String
  tokens_estimate : Nat
  latency_ms : Nat
  error : Option String
deriving DecidableEq

/-- A `Dialog` JSON document (storage.py lines 140-152); the constant empty
`indices` sub-document is inlined as three list fields and `limits` as
`max_messages`. -/
structure Dialog where
  dialog_id : String
  chat_id : Nat
  started_at : ℤ
  closed_at : Option ℤ
  model : String
  language : String
  image_meta : ImageMeta
  messages : List Message
  summary : String
  keywords : List String
  dates : List String
  entities : List String
  max_messages : Nat
deriving DecidableEq

/-- One file under `<base>/dialogs/<chat_id>/<dialog_id>.json`: the path
components plus the parsed document (whose own `dialog_id` field can in
principle differ from the file name). -/
structure DialogFile where
  chat_id : Nat
  dialog_id : String
  data : Dialog
deriving DecidableEq

/-- The durable state of a `JsonStore`: the user-profile files and the
dialog files. -/
structure JsonStore where
  users : List UserProfile
  dialogs : List DialogFile
deriving DecidableEq

/-- The string `_dialog_path` builds (relative to the base directory). -/
def dialogPathStr (chat_id : Nat) (dialog_id : String) : String :=
  "dialogs/" ++ toString chat_id ++ "/" ++ dialog_id ++ ".json"

/-- Errors raised by the store: `FileNotFoundError` from `append_message`
and the `RuntimeError` from `add_dialog_index_entry`. -/
inductive StoreError where
  | notFound (path : String)
  | userMissing
deriving DecidableEq

/-- Read the profile file `users/<chat_id>.json` from the file list (a real
directory holds at most one file per path). -/
def findUser? (l : List UserProfile) (chat_id : Nat) : Option UserProfile :=
  match l with
  | [] => none
  | v :: t => if v.chat_id = chat_id then some v else findUser? t chat_id

/-- `JsonStore.load_user`: read the profile file for `chat_id`, if present. -/
def load_user (st : JsonStore) (chat_id : Nat) : Option UserProfile :=
  findUser? st.users chat_id

/-- Write a user-profile file: one file per `chat_id`, so a write replaces
the entry at that path or creates it. -/
def putUser (l : List UserProfile) (u : UserProfile) : List UserProfile :=
  match l with
  | [] => [u]
  | v :: t => if v.chat_id = u.chat_id then u :: t else v :: putUser t u

/-- `JsonStore.save_user` (an atomic write to `users/<chat_id>.json`). -/
def save_user (st : JsonStore) (u : UserProfile) : JsonStore :=
  { st with users := putUser st.users u }

/-- Look up the dialog file at path `(chat_id, dialog_id)`. -/
def findDialog (l : List DialogFile) (chat_id : Nat) (dialog_id : String) :
    Option DialogFile :=
  match l with
  | [] => none
  | f :: t =>
      if f.chat_id = chat_id ∧ f.dialog_id = dialog_id then some f
      else findDialog t chat_id dialog_id

/-- Read the dialog document at path `(chat_id, dialog_id)`. -/
def lookupDialog (st : JsonStore) (chat_id : Nat) (dialog_id : String) :
    Option Dialog :=
  (findDialog st.dialogs chat_id dialog_id).map (·.data)

/-- Write a dialog file: replaces the entry at that path or creates it. -/
def putDialog (l : List DialogFile) (chat_id : Nat) (dialog_id : String)
    (d : Dialog) : List DialogFile :=
  match l with
  | [] => [⟨chat_id, dialog_id, d⟩]
  | f :: t =>
      if f.chat_id = chat_id ∧ f.dialog_id = dialog_id then
        ⟨chat_id, dialog_id, d⟩ :: t
      else f :: putDialog t chat_id dialog_id d

/-- `JsonStore.init_user_if_needed` (storage.py lines 69-99): create the
profile on first call, otherwise refresh the freshness timestamps; all the
`time.time()` calls of one invocation are modelled by the single value
`now`.  Returns the saved store and the current profile. -/
def init_user_if_needed (st : JsonStore) (chat_id : Nat)
    (username first_name last_name : Option String) (language : String)
    (now : ℤ) : JsonStore × UserProfile :=
  match load_user st chat_id with
  | none =>
      let u : UserProfile :=
        { chat_id := chat_id
          username := username
          first_name := first_name
          last_name := last_name
          first_seen := now
          last_seen := now
          language := language
          dialogs_index := []
          stats := ⟨0, 0, now⟩ }
      (save_user st u, u)
  | some u0 =>
      let u := { u0 with
        last_seen := now
        stats := { u0.stats with last_active_at := now } }
      (save_user st u, u)

/-- `JsonStore.add_dialog_index_entry` (storage.py lines 101-109): raises
`RuntimeError` when the profile is absent, otherwise appends the entry and
bumps `total_dialogs`. -/
def add_dialog_index_entry (st : JsonStore) (chat_id : Nat)
    (entry : DialogIndexEntry) : Except StoreError JsonStore :=
  match load_user st chat_id with
  | none => .error .userMissing
  | some u =>
      let u := { u with
        dialogs_index := u.dialogs_index ++ [entry]
        stats := { u.stats with total_dialogs := u.stats.total_dialogs + 1 } }
      .ok (save_user st u)

/-- Python list slicing `l[:stop]` for a possibly negative `stop`. -/
def pySliceTo {α : Type} (l : List α) (stop : Int) : List α :=
  if 0 ≤ stop then l.take stop.toNat
  else l.take (l.length - (-stop).toNat)

/-- `idx.sort(key=lambda e: e.get("started_at", 0), reverse=True)`: Python's
sort is stable, and with `reverse=True` it keeps `a` before `b` exactly when
`b.started_at ≤ a.started_at` holds for the pair in original order; a stable
sort for a fixed total preorder is unique, and `List.insertionSort` is that
stable sort for the relation `fun a b => b.started_at ≤ a.started_at`. -/
def sortIndexDesc (idx : List DialogIndexEntry) : List DialogIndexEntry :=
  idx.insertionSort fun a b => b.started_at ≤ a.started_at

/-- `JsonStore.list_dialogs` (storage.py lines 122-128). -/
def list_dialogs (st : JsonStore) (chat_id : Nat) (limit : Int) :
    List DialogIndexEntry :=
  match load_user st chat_id with
  | none => []
  | some u => pySliceTo (sortIndexDesc u.dialogs_index) limit

/-- The `Dialog` document `open_dialog` writes (storage.py lines 140-152). -/
def freshDialog (chat_id : Nat) (dialog_id : String) (model : String)
    (image_meta : ImageMetaIn) (caption_text : Option String) (now : ℤ) :
    Dialog :=
  { dialog_id := dialog_id
    chat_id := chat_id
    started_at := now
    closed_at := none
    model := model
    language := "ru"
    image_meta := ⟨image_meta, caption_text, now⟩
    messages := []
    summary := ""
    keywords := []
    dates := []
    entities := []
    max_messages := 500 }

/-- `JsonStore.open_dialog` (storage.py lines 130-153): atomically writes a
fresh `Dialog` document at `(chat_id, dialog_id)`; both `time.time()` reads
of the call are modelled by `now`.  There is no existence check: a document
already at that path is overwritten. -/
def open_dialog (st : JsonStore) (chat_id : Nat) (dialog_id : String)
    (model : String) (image_meta : ImageMetaIn) (caption_text : Option String)
    (now : ℤ) : JsonStore :=
  { st with dialogs :=
      putDialog st.dialogs chat_id dialog_id (freshDialog chat_id dialog_id model image_meta caption_text now) }

/-- `JsonStore.append_message` (storage.py lines 155-175): raises
`FileNotFoundError` when the dialog file is absent; otherwise appends the
message, atomically rewrites the dialog file, and then (when the owner's
profile file exists) bumps `stats.total_requests` by one. -/
def append_message (st : JsonStore) (chat_id : Nat) (dialog_id : String)
    (message : Message) : Except StoreError JsonStore :=
  match lookupDialog st chat_id dialog_id with
  | none => .error (.notFound (dialogPathStr chat_id dialog_id))
  | some data =>
      let data := { data with messages := data.messages ++ [message] }
      let st1 : JsonStore :=
        { st with dialogs := putDialog st.dialogs chat_id dialog_id data }
      match load_user st1 chat_id with
      | none => .ok st1
      | some u =>
          let u := { u with stats :=
            { u.stats with total_requests := u.stats.total_requests + 1 } }
          .ok (save_user st1 u)

/-- `JsonStore.delete_dialog` (storage.py lines 193-207): unlink the dialog
file when it exists, then (whenever the profile exists) rewrite the profile
with every index entry for `dialog_id` filtered out; returns whether the
file existed.  It raises nothing. -/
def delete_dialog (st : JsonStore) (chat_id : Nat) (dialog_id : String) :
    JsonStore × Bool :=
  let existed := (findDialog st.dialogs chat_id dialog_id).isSome
  let kept := st.dialogs.filter
    fun f => decide (¬(f.chat_id = chat_id ∧ f.dialog_id = dialog_id))
  let st1 : JsonStore := if existed then { st with dialogs := kept } else st
  match load_user st1 chat_id with
  | none => (st1, existed)
  | some u =>
      let u := { u with dialogs_index :=
        u.dialogs_index.filter fun e => decide (e.dialog_id ≠ dialog_id) }
      (save_user st1 u, existed)

/-- The removal test of `prune_old` (storage.py line 241): Python's
`if started and started < cutoff` skips a zero `started_at` (float `0.0` is
falsy) as well as timestamps at or after the cutoff. -/
def pruneFileHit (cutoff : ℤ) (f : DialogFile) : Bool :=
  decide (f.data.started_at ≠ 0 ∧ f.data.started_at < cutoff)

/-- The index cleanup `prune_old` performs for one removed dialog file
(storage.py lines 243-251): it is skipped when the document's own
`dialog_id` field is falsy (empty), and when the owner has no profile file;
otherwise the profile is rewritten with the entries for that id filtered
out.  (The `chat_id is not None` guard is always true here because directory
names come from `str(chat_id)` with `chat_id : Nat`.) -/
def pruneIndexUpdate (users : List UserProfile) (chat_id : Nat)
    (data_dialog_id : String) : List UserProfile :=
  if data_dialog_id = "" then users
  else
    match findUser? users chat_id with
    | none => users
    | some u =>
        putUser users { u with dialogs_index :=
          u.dialogs_index.filter fun e => decide (e.dialog_id ≠ data_dialog_id) }

/-- The scan of `prune_old` over every dialog file, in directory order:
returns the surviving files, the updated user files, and the number of
files unlinked. -/
def pruneGo (cutoff : ℤ) :
    List DialogFile → List UserProfile → List DialogFile × List UserProfile × Nat
  | [], users => ([], users, 0)
  | f :: rest, users =>
      if pruneFileHit cutoff f then
        let users1 := pruneIndexUpdate users f.chat_id f.data.dialog_id
        let r := pruneGo cutoff rest users1
        (r.1, r.2.1, r.2.2 + 1)
      else
        let r := pruneGo cutoff rest users
        (f :: r.1, r.2.1, r.2.2)

/-- `JsonStore.prune_old` (storage.py lines 226-254): remove every dialog
file whose (nonzero) `started_at` precedes `now - days*86400`, clean up the
owning profiles, and return the number of files removed. -/
def prune_old (st : JsonStore) (days : Nat) (now : ℤ) : JsonStore × Nat :=
  let cutoff := now - (days : ℤ) * 86400
  let r := pruneGo cutoff st.dialogs st.users
  (⟨r.2.1, r.1⟩, r.2.2)

/-! ## SessionCache (session.py) -/

/-- `ActiveSession` dataclass (session.py lines 6-12); the opaque
`gemini_chat` handle is modelled as a number. -/
structure ActiveSession where
  dialog_id : String
  gemini_chat : Nat
  last_activity_at : ℤ
  last_image_meta : ImageMetaIn
  message_seq : Nat
deriving DecidableEq

/-- `SessionManager` (session.py lines 15-18): a process-local map from
chat id to active session, plus the idle timeout in seconds. -/
structure SessionManager where
  sessions : Nat → Option ActiveSession
  idle_seconds : ℤ

/-- `SessionManager.__init__`: empty map, `idle_timeout_minutes * 60`. -/
def SessionManager.mk0 (idle_timeout_minutes : Nat) : SessionManager :=
  ⟨fun _ => none, (idle_timeout_minutes : ℤ) * 60⟩

/-- `SessionManager.get` (session.py lines 20-28): lazily evict the entry
when `now - last_activity_at > idle_seconds`, returning the session
otherwise; the possibly updated manager is returned alongside. -/
def SessionManager.get (m : SessionManager) (now : ℤ) (chat_id : Nat) :
    Option ActiveSession × SessionManager :=
  match m.sessions chat_id with
  | none => (none, m)
  | some s =>
      if m.idle_seconds < now - s.last_activity_at then
        (none, { m with sessions := fun c => if c == chat_id then none else m.sessions c })
      else (some s, m)

/-- `SessionManager.set` (session.py lines 30-31): unconditional replace. -/
def SessionManager.set (m : SessionManager) (chat_id : Nat)
    (s : ActiveSession) : SessionManager :=
  { m with sessions := fun c => if c == chat_id then some s else m.sessions c }

/-- `SessionManager.clear` (session.py lines 33-34): unconditional remove. -/
def SessionManager.clear (m : SessionManager) (chat_id : Nat) : SessionManager :=
  { m with sessions := fun c => if c == chat_id then none else m.sessions c }

/-! ## GeminiClient retry loops (gemini.py) -/

/-- The outcome of one attempt of the remote call: success with the reply
text, a `FailedPrecondition` (region disallowed), a recognized
`GoogleAPICallError`, or any other exception. -/
inductive GemOutcome where
  | success (text : String)
  | failedPrecondition
  | apiCallError
  | otherError
deriving DecidableEq

/-- The classified failures the client surfaces (the `RuntimeError` codes
`gemini_region_blocked`, `gemini_api_error`, `gemini_unknown_error`). -/
inductive GemError where
  | regionBlocked
  | apiError
  | unknownError
deriving DecidableEq

/-- `GeminiClient.send_chat_message` (gemini.py lines 106-126), as a function
of the per-attempt outcomes of the underlying provider call.  `attempt` is
the loop counter (initially 0) and `delays` accumulates the `asyncio.sleep`
durations `0.8 * attempt` observed so far; `none` means the loop would make
an attempt for which no outcome was supplied. -/
def send_chat_message :
    List GemOutcome → Nat → List ℚ → Option (Except GemError String × List ℚ)
  | [], _, _ => none
  | .success t :: _, _, delays => some (.ok t, delays)
  | .failedPrecondition :: _, _, delays => some (.error .regionBlocked, delays)
  | .apiCallError :: rest, attempt, delays =>
      if attempt + 1 ≥ 2 then some (.error .apiError, delays)
      else send_chat_message rest (attempt + 1)
        (delays ++ [(0.8 : ℚ) * ((attempt : ℚ) + 1)])
  | .otherError :: rest, attempt, delays =>
      if attempt + 1 ≥ 2 then some (.error .unknownError, delays)
      else send_chat_message rest (attempt + 1)
        (delays ++ [(0.8 : ℚ) * ((attempt : ℚ) + 1)])

/-- `GeminiClient.start_chat_and_answer_first` (gemini.py lines 79-104): the
chat object is created before the loop and returned with the first answer;
the retry loop is the same as `send_chat_message`. -/
def start_chat_and_answer_first (chat : Nat) :
    List GemOutcome → Nat → List ℚ →
      Option (Except GemError (Nat × String) × List ℚ)
  | [], _, _ => none
  | .success t :: _, _, delays => some (.ok (chat, t), delays)
  | .failedPrecondition :: _, _, delays => some (.error .regionBlocked, delays)
  | .apiCallError :: rest, attempt, delays =>
      if attempt + 1 ≥ 2 then some (.error .apiError, delays)
      else start_chat_and_answer_first chat rest (attempt + 1)
        (delays ++ [(0.8 : ℚ) * ((attempt : ℚ) + 1)])
  | .otherError :: rest, attempt, delays =>
      if attempt + 1 ≥ 2 then some (.error .unknownError, delays)
      else start_chat_and_answer_first chat rest (attempt + 1)
        (delays ++ [(0.8 : ℚ) * ((attempt : ℚ) + 1)])

/-! ## Turn handling (handlers.py `handle_message`) -/

/-- The mutable state a turn touches: the durable store and the session map. -/
structure BotState where
  store : JsonStore
  sessions : SessionManager

/-- The default caption used when a photo arrives without one. -/
def defaultCaption : String := "Опиши изображение, пожалуйста."

/-- Python `s or dflt` for an optional string (both `None` and `""` are
falsy). -/
def pyOrStr (s : Option String) (dflt : String) : String :=
  match s with
  | none => dflt
  | some t => if t == "" then dflt else t

/-- The photo branch of `BotHandlers.handle_message` (handlers.py lines
160-267) on the path where the remote call succeeds with reply `answer` and
chat handle `chatHandle`: prune, init the user, open the dialog `did`, add
its index entry, cache the new session, and append the `user` and
`assistant` messages with ids `message_seq + 1` and `message_seq + 2` (the
in-place mutations of the cached session object are modelled by re-storing
it).  All `time.time()` calls of the turn are modelled by `now`.  (When the
remote call fails instead, the handler returns before the session is stored
and before any append.) -/
def imageTurn (bs : BotState) (uid : Nat)
    (uname fname lname : Option String) (did : String) (meta : ImageMetaIn)
    (caption : Option String) (chatHandle : Nat) (answer : String)
    (retention : Nat) (now : ℤ) : Except StoreError BotState :=
  let store1 := (prune_old bs.store retention now).1
  let store2 := (init_user_if_needed store1 uid uname fname lname "ru" now).1
  let cap := pyOrStr caption defaultCaption
  let store3 := open_dialog store2 uid did "gemini-1.5-flash" meta (some cap) now
  match add_dialog_index_entry store3 uid ⟨did, now, none, "", true, 0, 0, true⟩ with
  | .error e => .error e
  | .ok store4 =>
    let sess : ActiveSession := ⟨did, chatHandle, now, meta, 0⟩
    let sessions1 := bs.sessions.set uid sess
    let seq1 := sess.message_seq + 1
    match append_message store4 uid did ⟨seq1, now, "user", "image+text", cap, 0, 0, none⟩ with
    | .error e => .error e
    | .ok store5 =>
      let seq2 := seq1 + 1
      match append_message store5 uid did ⟨seq2, now, "assistant", "text", answer, 0, 0, none⟩ with
      | .error e => .error e
      | .ok store6 => .ok ⟨store6, sessions1.set uid { sess with message_seq := seq2 }⟩

/-- The text branch of `BotHandlers.handle_message` (handlers.py lines
269-322): prune, init the user, consult the session cache; without a cached
session the turn only replies with guidance.  `outcome` is the classified
result of `send_chat_message`: on failure the handler replies and returns
(no append, no `message_seq` change); on success `answer` it appends the
`user` and `assistant` messages with ids `message_seq + 1` and
`message_seq + 2` and the cached session keeps the bumped counter.  Note
that nothing in this branch updates `last_activity_at`.  All `time.time()`
calls of the turn are modelled by `now`. -/
def textTurn (bs : BotState) (uid : Nat) (uname fname lname : Option String)
    (prompt : String) (outcome : Option String) (retention : Nat) (now : ℤ) :
    Except StoreError BotState :=
  let store1 := (prune_old bs.store retention now).1
  let store2 := (init_user_if_needed store1 uid uname fname lname "ru" now).1
  let got := bs.sessions.get now uid
  match got.1 with
  | none => .ok ⟨store2, got.2⟩
  | some s =>
      match outcome with
      | none => .ok ⟨store2, got.2⟩
      | some answer =>
          let seq1 := s.message_seq + 1
          match append_message store2 uid s.dialog_id ⟨seq1, now, "user", "text", prompt, 0, 0, none⟩ with
          | .error e => .error e
          | .ok store3 =>
              let seq2 := seq1 + 1
              match append_message store3 uid s.dialog_id ⟨seq2, now, "assistant", "text", answer, 0, 0, none⟩ with
              | .error e => .error e
              | .ok store4 => .ok ⟨store4, got.2.set uid { s with message_seq := seq2 }⟩

/-- One text continuation: the prompt, the classified remote outcome
(`some answer` on success), and the turn's time. -/
structure ContTurn where
  prompt : String
  outcome : Option String
  now : ℤ

/-- Run a sequence of text continuations. -/
def runConts (uid : Nat) (uname fname lname : Option String) (retention : Nat) :
    BotState → List ContTurn → Except StoreError BotState
  | bs, [] => .ok bs
  | bs, c :: rest =>
      match textTurn bs uid uname fname lname c.prompt c.outcome retention c.now with
      | .error e => .error e
      | .ok bs1 => runConts uid uname fname lname retention bs1 rest

/-- Number of continuations whose remote call succeeded. -/
def countSome (conts : List ContTurn) : Nat :=
  (conts.filter fun c => c.outcome.isSome).length

/-- The role column of a transcript of `k` completed turns: each turn
appends one `user` and one `assistant` message. -/
def rolePairs : Nat → List String
  | 0 => []
  | k + 1 => rolePairs k ++ ["user", "assistant"]

/-! ## Lemmas about the user-profile files -/

/-- A write of profile `u` makes the lookup of `u.chat_id` return `u`. -/
theorem findUser?_putUser_self (l : List UserProfile) (u : UserProfile) :
    findUser? (putUser l u) u.chat_id = some u := by
  induction l with
  | nil => simp [putUser, findUser?]
  | cons v t ih =>
    by_cases hv : v.chat_id = u.chat_id
    · simp [putUser, findUser?, hv]
    · simp [putUser, findUser?, hv, ih]

/-- A write of profile `u` leaves the lookup of any other id unchanged. -/
theorem findUser?_putUser_other (l : List UserProfile) (u : UserProfile)
    (c : Nat) (h : u.chat_id ≠ c) :
    findUser? (putUser l u) c = findUser? l c := by
  induction l with
  | nil => simp [putUser, findUser?, h]
  | cons v t ih =>
    by_cases hv : v.chat_id = u.chat_id
    · have hvc : ¬v.chat_id = c := by rw [hv]; exact h
      simp [putUser, findUser?, hv, hvc, h]
    · by_cases hc : v.chat_id = c
      · simp only [putUser, if_neg hv, findUser?]
        rw [if_pos hc, if_pos hc]
      · simp [putUser, findUser?, hv, hc, ih]

/-- A successful lookup returns a profile carrying the requested id. -/
theorem findUser?_chat_id {l : List UserProfile} {c : Nat} {u : UserProfile}
    (h : findUser? l c = some u) : u.chat_id = c := by
  induction l with
  | nil => simp [findUser?] at h
  | cons v t ih =>
    by_cases hv : v.chat_id = c
    · rw [findUser?, if_pos hv] at h
      cases h
      exact hv
    · rw [findUser?, if_neg hv] at h
      exact ih h

/-- `load_user` after `save_user` of the same id. -/
theorem load_user_save_self (st : JsonStore) (u : UserProfile) :
    load_user (save_user st u) u.chat_id = some u :=
  findUser?_putUser_self st.users u

/-- `load_user` after `save_user` of a different id. -/
theorem load_user_save_other (st : JsonStore) (u : UserProfile) (c : Nat)
    (h : u.chat_id ≠ c) :
    load_user (save_user st u) c = load_user st c :=
  findUser?_putUser_other st.users u c h

/-- A successful `load_user` returns a profile carrying the requested id. -/
theorem load_user_chat_id {st : JsonStore} {c : Nat} {u : UserProfile}
    (h : load_user st c = some u) : u.chat_id = c :=
  findUser?_chat_id h

/-- `load_user` after `save_user`, indexed by an id known to match. -/
theorem load_user_save_self_at (st : JsonStore) (u : UserProfile) (c : Nat)
    (h : u.chat_id = c) : load_user (save_user st u) c = some u :=
  h ▸ load_user_save_self st u

/-- `save_user` does not touch the dialog files. -/
theorem save_user_dialogs (st : JsonStore) (u : UserProfile) :
    (save_user st u).dialogs = st.dialogs := rfl

/-! ## Lemmas about the dialog files -/

/-- A write of document `d` at a path makes the lookup of that path return
the file holding `d`. -/
theorem findDialog_putDialog_self (l : List DialogFile) (cid : Nat)
    (did : String) (d : Dialog) :
    findDialog (putDialog l cid did d) cid did = some ⟨cid, did, d⟩ := by
  induction l with
  | nil => simp [putDialog, findDialog]
  | cons f t ih =>
    by_cases hf : f.chat_id = cid ∧ f.dialog_id = did
    · simp [putDialog, findDialog, hf]
    · simp [putDialog, findDialog, hf, ih]

/-- A write at one path leaves the lookup of any other path unchanged. -/
theorem findDialog_putDialog_other (l : List DialogFile) (cid : Nat)
    (did : String) (d : Dialog) (c2 : Nat) (i2 : String)
    (h : ¬(cid = c2 ∧ did = i2)) :
    findDialog (putDialog l cid did d) c2 i2 = findDialog l c2 i2 := by
  induction l with
  | nil => simp [putDialog, findDialog, h]
  | cons f t ih =>
    by_cases hf : f.chat_id = cid ∧ f.dialog_id = did
    · have hother : ¬(cid = c2 ∧ did = i2) := h
      have hf2 : ¬(f.chat_id = c2 ∧ f.dialog_id = i2) := by
        rw [hf.1, hf.2]
        exact hother
      simp [putDialog, findDialog, hf, hf2, hother]
    · by_cases hc : f.chat_id = c2 ∧ f.dialog_id = i2
      · simp only [putDialog, if_neg hf, findDialog]
        rw [if_pos hc, if_pos hc]
      · simp [putDialog, findDialog, hf, hc, ih]

/-- When the file found at a path survives a `filter`, the filtered list
still finds it. -/
theorem findDialog_filter (l : List DialogFile) (cid : Nat) (did : String)
    (q : DialogFile → Bool) (f0 : DialogFile)
    (h : findDialog l cid did = some f0) (hq : q f0 = true) :
    findDialog (l.filter q) cid did = some f0 := by
  induction l with
  | nil => simp [findDialog] at h
  | cons f t ih =>
    by_cases hf : f.chat_id = cid ∧ f.dialog_id = did
    · rw [findDialog, if_pos hf] at h
      cases h
      rw [List.filter_cons_of_pos hq, findDialog, if_pos hf]
    · rw [findDialog, if_neg hf] at h
      by_cases hqf : q f = true
      · rw [List.filter_cons_of_pos hqf, findDialog, if_neg hf]
        exact ih h
      · rw [List.filter_cons_of_neg (by simpa using hqf)]
        exact ih h

/-- Filtering away exactly the files at one path makes the lookup of that
path fail. -/
theorem findDialog_filter_out (l : List DialogFile) (cid : Nat) (did : String) :
    findDialog
      (l.filter fun f => decide (¬(f.chat_id = cid ∧ f.dialog_id = did)))
      cid did = none := by
  induction l with
  | nil => simp [findDialog]
  | cons f t ih =>
    by_cases hf : f.chat_id = cid ∧ f.dialog_id = did
    · rw [List.filter_cons_of_neg
        (by simp only [decide_eq_true_iff]; exact not_not_intro hf)]
      exact ih
    · rw [List.filter_cons_of_pos
        (by simp only [decide_eq_true_iff]; exact hf), findDialog, if_neg hf]
      exact ih

/-! ## Lemmas about `prune_old` -/

/-- The document ids whose index entries the prune scan removes from user
`c`: one id per removed file owned by `c` whose document carries a nonempty
`dialog_id`. -/
def removedIds (cutoff : ℤ) (fs : List DialogFile) (c : Nat) : List String :=
  (fs.filter (pruneFileHit cutoff)).filterMap fun f =>
    if f.chat_id = c ∧ f.data.dialog_id ≠ "" then some f.data.dialog_id
    else none

/-- The prune scan keeps exactly the files the removal test spares. -/
theorem pruneGo_dialogs (cutoff : ℤ) (fs : List DialogFile)
    (users : List UserProfile) :
    (pruneGo cutoff fs users).1
      = fs.filter fun f => !(pruneFileHit cutoff f) := by
  induction fs generalizing users with
  | nil => simp [pruneGo]
  | cons f rest ih =>
    by_cases hhit : pruneFileHit cutoff f = true
    · simp [pruneGo, hhit, ih]
    · simp only [Bool.not_eq_true] at hhit
      simp [pruneGo, hhit, ih]

/-- The prune scan counts exactly the files the removal test hits. -/
theorem pruneGo_count (cutoff : ℤ) (fs : List DialogFile)
    (users : List UserProfile) :
    (pruneGo cutoff fs users).2.2
      = (fs.filter (pruneFileHit cutoff)).length := by
  induction fs generalizing users with
  | nil => simp [pruneGo]
  | cons f rest ih =>
    by_cases hhit : pruneFileHit cutoff f = true
    · simp [pruneGo, hhit, ih]
    · simp only [Bool.not_eq_true] at hhit
      simp [pruneGo, hhit, ih]

/-- Effect of one index cleanup on an arbitrary profile lookup. -/
theorem pruneIndexUpdate_findUser? (users : List UserProfile) (cid : Nat)
    (did : String) (c : Nat) :
    findUser? (pruneIndexUpdate users cid did) c
      = if cid = c ∧ did ≠ "" then
          (findUser? users c).map fun u =>
            { u with dialogs_index :=
                u.dialogs_index.filter (fun e => decide (e.dialog_id ≠ did)) }
        else findUser? users c := by
  unfold pruneIndexUpdate
  by_cases hdid : did = ""
  · rw [if_pos hdid, if_neg (fun h => h.2 hdid)]
  · rw [if_neg hdid]
    rcases hf : findUser? users cid with _ | u
    · simp only [hf]
      by_cases hc : cid = c
      · subst hc
        rw [if_pos ⟨rfl, hdid⟩, hf, Option.map_none']
      · rw [if_neg (fun h => hc h.1)]
    · simp only [hf]
      have hu : u.chat_id = cid := findUser?_chat_id hf
      subst hu
      by_cases hc : u.chat_id = c
      · subst hc
        rw [if_pos ⟨rfl, hdid⟩, hf, Option.map_some']
        exact findUser?_putUser_self users
          { u with dialogs_index :=
              u.dialogs_index.filter (fun e => decide (e.dialog_id ≠ did)) }
      · rw [if_neg (fun h => hc h.1)]
        exact findUser?_putUser_other users _ c hc

/-- Combining the per-id filters of successive cleanups into one
membership filter. -/
theorem filter_removed_cons (idx : List DialogIndexEntry) (did : String)
    (ids : List String) :
    ((idx.filter fun e => decide (e.dialog_id ≠ did)).filter
        fun e => decide (e.dialog_id ∉ ids))
      = idx.filter fun e => decide (e.dialog_id ∉ did :: ids) := by
  rw [List.filter_filter]
  refine List.filter_congr fun e _ => ?_
  by_cases h1 : e.dialog_id = did <;> by_cases h2 : e.dialog_id ∈ ids <;>
    simp [h1, h2]

/-- Effect of the whole prune scan on an arbitrary profile lookup: every
profile survives, with exactly the entries for the removed document ids
filtered out of its index. -/
theorem pruneGo_users (cutoff : ℤ) (fs : List DialogFile)
    (users : List UserProfile) (c : Nat) :
    findUser? (pruneGo cutoff fs users).2.1 c
      = (findUser? users c).map fun u =>
          { u with dialogs_index :=
              u.dialogs_index.filter (fun e => decide (e.dialog_id ∉ removedIds cutoff fs c)) } := by
  induction fs generalizing users with
  | nil =>
    rcases hf : findUser? users c with _ | u <;>
      simp [pruneGo, removedIds, hf]
  | cons f rest ih =>
    by_cases hhit : pruneFileHit cutoff f = true
    · have hrec : (pruneGo cutoff (f :: rest) users).2.1
          = (pruneGo cutoff rest
              (pruneIndexUpdate users f.chat_id f.data.dialog_id)).2.1 := by
        simp [pruneGo, hhit]
      have hids : removedIds cutoff (f :: rest) c
          = if f.chat_id = c ∧ f.data.dialog_id ≠ "" then
              f.data.dialog_id :: removedIds cutoff rest c
            else removedIds cutoff rest c := by
        by_cases hcd : f.chat_id = c ∧ f.data.dialog_id ≠ "" <;>
          simp [removedIds, hhit, hcd]
      rw [hrec, ih, pruneIndexUpdate_findUser?]
      by_cases hcd : f.chat_id = c ∧ f.data.dialog_id ≠ ""
      · rw [if_pos hcd, hids, if_pos hcd]
        rcases hf : findUser? users c with _ | u
        · simp
        · simp only [hf, Option.map_some', Option.some.injEq,
            UserProfile.mk.injEq, List.filter_filter]
          refine ⟨trivial, trivial, trivial, trivial, trivial, trivial,
            trivial, ?_, trivial⟩
          refine List.filter_congr fun e _ => ?_
          by_cases h1 : e.dialog_id = f.data.dialog_id <;>
            by_cases h2 : e.dialog_id ∈ removedIds cutoff rest c <;>
              simp [h1, h2]
      · rw [if_neg hcd, hids, if_neg hcd]
    · simp only [Bool.not_eq_true] at hhit
      have hrec : (pruneGo cutoff (f :: rest) users).2.1
          = (pruneGo cutoff rest users).2.1 := by
        simp [pruneGo, hhit]
      have hids : removedIds cutoff (f :: rest) c
          = removedIds cutoff rest c := by
        simp [removedIds, hhit]
      rw [hrec, ih, hids]

/-- `prune_old` at the store level: the three components of the scan. -/
theorem prune_old_parts (st : JsonStore) (days : Nat) (now : ℤ) :
    (prune_old st days now).1.dialogs
        = st.dialogs.filter
            (fun f => !(pruneFileHit (now - (days : ℤ) * 86400) f))
      ∧ (prune_old st days now).2
        = (st.dialogs.filter
            (pruneFileHit (now - (days : ℤ) * 86400))).length
      ∧ ∀ c, load_user (prune_old st days now).1 c
          = (load_user st c).map fun u =>
              { u with dialogs_index :=
                  u.dialogs_index.filter (fun e => decide (e.dialog_id ∉ removedIds (now - (days : ℤ) * 86400) st.dialogs c)) } := by
  refine ⟨?_, ?_, fun c => ?_⟩
  · exact pruneGo_dialogs _ _ _
  · exact pruneGo_count _ _ _
  · exact pruneGo_users _ _ _ _

/-! ## Lemmas about `append_message`, `init_user_if_needed`,
`add_dialog_index_entry` -/

/-- Successful `append_message`: the target document gains exactly the new
message at the end, every other path is untouched, and the owner's
`total_requests` counter (when the profile exists) goes up by exactly one. -/
theorem append_message_ok (st : JsonStore) (cid : Nat) (did : String)
    (msg : Message) (d : Dialog) (h : lookupDialog st cid did = some d) :
    ∃ st1, append_message st cid did msg = .ok st1
      ∧ lookupDialog st1 cid did = some { d with messages := d.messages ++ [msg] }
      ∧ (∀ c2 i2, ¬(cid = c2 ∧ did = i2) →
          lookupDialog st1 c2 i2 = lookupDialog st c2 i2)
      ∧ (load_user st cid = none → st1.users = st.users)
      ∧ (∀ u, load_user st cid = some u →
          load_user st1 cid = some { u with stats :=
            { u.stats with total_requests := u.stats.total_requests + 1 } }
          ∧ ∀ c2, c2 ≠ cid → load_user st1 c2 = load_user st c2) := by
  have hlook : ∀ X : List UserProfile,
      lookupDialog ⟨X, putDialog st.dialogs cid did
          { d with messages := d.messages ++ [msg] }⟩ cid did
        = some { d with messages := d.messages ++ [msg] } := by
    intro X
    unfold lookupDialog
    rw [findDialog_putDialog_self]
    rfl
  have hlook2 : ∀ (X : List UserProfile) c2 i2, ¬(cid = c2 ∧ did = i2) →
      lookupDialog ⟨X, putDialog st.dialogs cid did
          { d with messages := d.messages ++ [msg] }⟩ c2 i2
        = lookupDialog st c2 i2 := by
    intro X c2 i2 hne
    unfold lookupDialog
    rw [findDialog_putDialog_other _ _ _ _ _ _ hne]
  have hsc : load_user ⟨st.users, putDialog st.dialogs cid did
      { d with messages := d.messages ++ [msg] }⟩ cid = load_user st cid := rfl
  unfold append_message
  simp only [h, hsc]
  rcases hu : load_user st cid with _ | u
  · simp only [hu]
    refine ⟨_, rfl, hlook _, hlook2 _, fun _ => rfl, fun u hu2 => ?_⟩
    exact Option.noConfusion hu2
  · have hch : u.chat_id = cid := load_user_chat_id hu
    simp only [hu]
    refine ⟨_, rfl, hlook _, hlook2 _, fun hnone => ?_, fun u2 hu2 => ?_⟩
    · exact Option.noConfusion hnone
    · cases hu2
      constructor
      · exact load_user_save_self_at
          ⟨st.users, putDialog st.dialogs cid did
            { d with messages := d.messages ++ [msg] }⟩
          { u with stats :=
            { u.stats with total_requests := u.stats.total_requests + 1 } }
          cid hch
      · intro c2 hc2
        refine load_user_save_other
          ⟨st.users, putDialog st.dialogs cid did
            { d with messages := d.messages ++ [msg] }⟩
          { u with stats :=
            { u.stats with total_requests := u.stats.total_requests + 1 } }
          c2 ?_
        intro he
        apply hc2
        rw [← he]
        exact hch

/-- `append_message` on an absent path raises `FileNotFoundError` (and, the
exception being raised before any write, changes nothing). -/
theorem append_message_absent (st : JsonStore) (cid : Nat) (did : String)
    (msg : Message) (h : lookupDialog st cid did = none) :
    append_message st cid did msg = .error (.notFound (dialogPathStr cid did)) := by
  unfold append_message
  simp only [h]

/-- The profile `init_user_if_needed` writes when none exists yet. -/
def freshProfile (cid : Nat) (un fn ln : Option String) (lang : String)
    (now : ℤ) : UserProfile :=
  { chat_id := cid
    username := un
    first_name := fn
    last_name := ln
    first_seen := now
    last_seen := now
    language := lang
    dialogs_index := []
    stats := ⟨0, 0, now⟩ }

/-- The refreshed profile `init_user_if_needed` writes over an existing one. -/
def refreshedProfile (u0 : UserProfile) (now : ℤ) : UserProfile :=
  { u0 with
    last_seen := now
    stats := { u0.stats with last_active_at := now } }

/-- `init_user_if_needed` never touches the dialog files and always leaves
a profile for the id behind. -/
theorem init_user_parts (st : JsonStore) (cid : Nat)
    (un fn ln : Option String) (lang : String) (now : ℤ) :
    (init_user_if_needed st cid un fn ln lang now).1.dialogs = st.dialogs
      ∧ ∃ u, load_user (init_user_if_needed st cid un fn ln lang now).1 cid
          = some u := by
  unfold init_user_if_needed
  rcases hu : load_user st cid with _ | u0
  · simp only [hu]
    exact ⟨rfl, ⟨_, load_user_save_self_at st (freshProfile cid un fn ln lang now) cid rfl⟩⟩
  · have hch : u0.chat_id = cid := load_user_chat_id hu
    simp only [hu]
    exact ⟨rfl, ⟨_, load_user_save_self_at st (refreshedProfile u0 now) cid hch⟩⟩

/-- `add_dialog_index_entry` succeeds when the profile exists and never
touches the dialog files. -/
theorem add_entry_ok (st : JsonStore) (cid : Nat) (entry : DialogIndexEntry)
    (u : UserProfile) (h : load_user st cid = some u) :
    ∃ st1, add_dialog_index_entry st cid entry = .ok st1
      ∧ st1.dialogs = st.dialogs := by
  unfold add_dialog_index_entry
  simp only [h]
  exact ⟨_, rfl, rfl⟩


/-! ## Handler-turn invariant -/

def dialogTurnsOK (bs : BotState) (uid : Nat) (did : String) (ch : Nat)
    (meta : ImageMetaIn) (t0 : ℤ) (T : Nat) : Prop :=
  (∃ d, lookupDialog bs.store uid did = some d
      ∧ d.started_at = t0
      ∧ d.messages.map (·.message_id) = List.range' 1 (2 * T)
      ∧ d.messages.map (·.role) = rolePairs T)
    ∧ bs.sessions.sessions uid = some ⟨did, ch, t0, meta, 2 * T⟩

theorem lookupDialog_congr {st1 st2 : JsonStore} (h : st1.dialogs = st2.dialogs)
    (c : Nat) (i : String) : lookupDialog st1 c i = lookupDialog st2 c i := by
  unfold lookupDialog
  rw [h]

theorem lookupDialog_open_self (st : JsonStore) (cid : Nat) (did : String)
    (model : String) (meta : ImageMetaIn) (cap : Option String) (now : ℤ) :
    lookupDialog (open_dialog st cid did model meta cap now) cid did
      = some (freshDialog cid did model meta cap now) := by
  unfold open_dialog lookupDialog
  rw [findDialog_putDialog_self]
  rfl

theorem set_sessions_self (m : SessionManager) (uid : Nat) (s : ActiveSession) :
    (m.set uid s).sessions uid = some s := by
  simp [SessionManager.set]

theorem range'_two_more (T : Nat) :
    List.range' 1 (2 * T) ++ [2 * T + 1, 2 * T + 2] = List.range' 1 (2 * (T + 1)) := by
  have h : 2 * (T + 1) = (2 * T + 1) + 1 := by ring
  rw [h, List.range'_concat, List.range'_concat]
  simp [List.append_assoc]
  constructor <;> ring

theorem imageTurn_ok (bs : BotState) (uid : Nat) (un fn ln : Option String)
    (did : String) (meta : ImageMetaIn) (caption : Option String) (ch : Nat)
    (answer : String) (ret : Nat) (t0 : ℤ) :
    ∃ bs1, imageTurn bs uid un fn ln did meta caption ch answer ret t0 = .ok bs1
      ∧ dialogTurnsOK bs1 uid did ch meta t0 1
      ∧ bs1.sessions.idle_seconds = bs.sessions.idle_seconds := by
  obtain ⟨hdl2, u2, hu2⟩ :=
    init_user_parts (prune_old bs.store ret t0).1 uid un fn ln "ru" t0
  have hu2x : load_user
      (open_dialog (init_user_if_needed (prune_old bs.store ret t0).1 uid un fn ln "ru" t0).1
        uid did "gemini-1.5-flash" meta (some (pyOrStr caption defaultCaption)) t0)
      uid = some u2 := hu2
  obtain ⟨st4, hadd, hdlg4⟩ :=
    add_entry_ok _ uid ⟨did, t0, none, "", true, 0, 0, true⟩ u2 hu2x
  have hlook4 : lookupDialog st4 uid did
      = some (freshDialog uid did "gemini-1.5-flash" meta (some (pyOrStr caption defaultCaption)) t0) := by
    rw [lookupDialog_congr hdlg4, lookupDialog_open_self]
  obtain ⟨st5, happ1, hl5, hother5, hnone5, hsome5⟩ :=
    append_message_ok st4 uid did
      ⟨0 + 1, t0, "user", "image+text", pyOrStr caption defaultCaption, 0, 0, none⟩
      _ hlook4
  obtain ⟨st6, happ2, hl6, hother6, hnone6, hsome6⟩ :=
    append_message_ok st5 uid did
      ⟨0 + 1 + 1, t0, "assistant", "text", answer, 0, 0, none⟩
      _ hl5
  simp only [imageTurn, hadd, happ1, happ2]
  refine ⟨_, rfl, ⟨⟨_, hl6, rfl, ?_, ?_⟩, ?_⟩, rfl⟩
  · simp [freshDialog, List.range']
  · simp [freshDialog, rolePairs]
  · simp [SessionManager.set]


theorem get_hit (m : SessionManager) (now : ℤ) (uid : Nat) (s : ActiveSession)
    (hs : m.sessions uid = some s)
    (h : now - s.last_activity_at ≤ m.idle_seconds) :
    m.get now uid = (some s, m) := by
  unfold SessionManager.get
  simp only [hs]
  rw [if_neg (not_lt.mpr h)]

theorem lookupDialog_prune_keep (st : JsonStore) (days : Nat) (now : ℤ)
    (c : Nat) (i : String) (d : Dialog) (hld : lookupDialog st c i = some d)
    (hkeep : ¬(d.started_at ≠ 0 ∧ d.started_at < now - (days : ℤ) * 86400)) :
    lookupDialog (prune_old st days now).1 c i = some d := by
  unfold lookupDialog at hld ⊢
  rcases Option.map_eq_some'.mp hld with ⟨f0, hf0, hdata⟩
  rw [(prune_old_parts st days now).1]
  rw [findDialog_filter _ _ _ _ f0 hf0 ?keep]
  case keep =>
    simp only [pruneFileHit, hdata, Bool.not_eq_true', decide_eq_false_iff_not]
    exact hkeep
  simp [hdata]

theorem textTurn_ok (bs : BotState) (uid : Nat) (un fn ln : Option String)
    (prompt : String) (outcome : Option String) (ret : Nat) (now : ℤ)
    (did : String) (ch : Nat) (meta : ImageMetaIn) (t0 : ℤ) (T : Nat)
    (hInv : dialogTurnsOK bs uid did ch meta t0 T)
    (hkeep : now - (ret : ℤ) * 86400 ≤ t0)
    (hidle : now - t0 ≤ bs.sessions.idle_seconds) :
    ∃ bs1, textTurn bs uid un fn ln prompt outcome ret now = .ok bs1
      ∧ dialogTurnsOK bs1 uid did ch meta t0
          (T + if outcome.isSome then 1 else 0)
      ∧ bs1.sessions.idle_seconds = bs.sessions.idle_seconds := by
  obtain ⟨⟨d, hld, hstart, hids, hroles⟩, hsess⟩ := hInv
  have hld1 : lookupDialog (prune_old bs.store ret now).1 uid did = some d := by
    refine lookupDialog_prune_keep bs.store ret now uid did d hld ?_
    rw [hstart]
    exact fun hc => (not_lt.mpr hkeep) hc.2
  have hld2 : lookupDialog
      (init_user_if_needed (prune_old bs.store ret now).1 uid un fn ln "ru" now).1
      uid did = some d := by
    rw [lookupDialog_congr
      (init_user_parts (prune_old bs.store ret now).1 uid un fn ln "ru" now).1]
    exact hld1
  have hget : bs.sessions.get now uid = (some ⟨did, ch, t0, meta, 2 * T⟩, bs.sessions) :=
    get_hit bs.sessions now uid ⟨did, ch, t0, meta, 2 * T⟩ hsess hidle
  rcases outcome with _ | answer
  · simp only [textTurn, hget]
    refine ⟨_, rfl, ⟨⟨d, hld2, hstart, ?_, ?_⟩, ?_⟩, rfl⟩
    · simpa using hids
    · simpa using hroles
    · simpa using hsess
  · obtain ⟨st3, happ1, hl3, hother3, hnone3, hsome3⟩ :=
      append_message_ok _ uid did
        ⟨2 * T + 1, now, "user", "text", prompt, 0, 0, none⟩ d hld2
    obtain ⟨st4, happ2, hl4, hother4, hnone4, hsome4⟩ :=
      append_message_ok st3 uid did
        ⟨2 * T + 1 + 1, now, "assistant", "text", answer, 0, 0, none⟩ _ hl3
    simp only [textTurn, hget, happ1, happ2]
    refine ⟨_, rfl, ⟨⟨_, hl4, hstart, ?_, ?_⟩, ?_⟩, rfl⟩
    · show (d.messages ++ [_] ++ [_]).map _ = List.range' 1 (2 * (T + 1))
      rw [List.map_append, List.map_append, hids, List.append_assoc]
      exact range'_two_more T
    · show (d.messages ++ [_] ++ [_]).map _ = _
      rw [List.map_append, List.map_append, hroles]
      simp [rolePairs]
    · show ((bs.sessions.set uid _).sessions uid) = _
      rw [set_sessions_self]
      simp [Nat.mul_add]


theorem runConts_ok (uid : Nat) (un fn ln : Option String) (ret : Nat)
    (did : String) (ch : Nat) (meta : ImageMetaIn) (t0 : ℤ) (idle0 : ℤ) :
    ∀ (conts : List ContTurn) (bs : BotState) (T : Nat),
      dialogTurnsOK bs uid did ch meta t0 T →
      bs.sessions.idle_seconds = idle0 →
      (∀ c ∈ conts, c.now - (ret : ℤ) * 86400 ≤ t0) →
      (∀ c ∈ conts, c.now - t0 ≤ idle0) →
      ∃ bs1, runConts uid un fn ln ret bs conts = .ok bs1
        ∧ dialogTurnsOK bs1 uid did ch meta t0 (T + countSome conts)
        ∧ bs1.sessions.idle_seconds = idle0
  | [], bs, T, hInv, hidle0, _, _ => by
      refine ⟨bs, rfl, ?_, hidle0⟩
      simpa [countSome] using hInv
  | c :: rest, bs, T, hInv, hidle0, hkeep, hidle => by
      obtain ⟨bs1, hrun, hInv1, hidle1⟩ :=
        textTurn_ok bs uid un fn ln c.prompt c.outcome ret c.now did ch meta t0 T
          hInv (hkeep c (List.mem_cons_self c rest))
          (by rw [hidle0]; exact hidle c (List.mem_cons_self c rest))
      obtain ⟨bs2, hrun2, hInv2, hidle2⟩ :=
        runConts_ok uid un fn ln ret did ch meta t0 idle0 rest bs1
          (T + if c.outcome.isSome then 1 else 0) hInv1
          (hidle1.trans hidle0)
          (fun x hx => hkeep x (List.mem_cons_of_mem c hx))
          (fun x hx => hidle x (List.mem_cons_of_mem c hx))
      refine ⟨bs2, ?_, ?_, hidle2⟩
      · simp only [runConts, hrun, hrun2]
      · have hcount : countSome (c :: rest)
            = (if c.outcome.isSome then 1 else 0) + countSome rest := by
          by_cases h : c.outcome.isSome <;> simp [countSome, h, Nat.add_comm]
        rw [hcount, ← Nat.add_assoc]
        exact hInv2


/-! ## Claim theorems -/

/-- C1: every durable write goes through `_atomic_write`, which serializes
the full new document to a uniquely named temporary file in the scratch
directory and installs it with a single rename.  For every write
interrupted at any point before the rename the original file at the target
path is unchanged; a reader only ever observes the complete pre-write or
complete post-write document, never a partial one; after the rename the
target holds the new document. -/
theorem claim_C1 (fs : FileSys) (tmp path content : String)
    (chunks : List String) (h : tmp ≠ path) :
    (∀ st ∈ atomic_write_trace fs tmp path chunks content,
        st path = fs path ∨ st path = some content)
      ∧ (∀ st ∈ (atomic_write_trace fs tmp path chunks content).dropLast,
          st path = fs path)
      ∧ atomic_write fs tmp path content path = some content := by
  have hw : ∀ c, writeFile fs tmp c path = fs path := by
    intro c
    unfold writeFile
    rw [if_neg (fun he => h he.symm)]
  have hfin : atomic_write fs tmp path content path = some content := by
    unfold atomic_write os_replace writeFile
    simp
  have htr : atomic_write_trace fs tmp path chunks content
      = (fs :: ((chunks.map fun c => writeFile fs tmp c)
          ++ [writeFile fs tmp content]))
        ++ [atomic_write fs tmp path content] := by
    simp [atomic_write_trace]
  refine ⟨?_, ?_, hfin⟩
  · intro st hst
    rw [htr] at hst
    simp only [List.mem_append, List.mem_cons, List.mem_map,
      List.mem_singleton] at hst
    rcases hst with (rfl | ⟨c, _, rfl⟩ | rfl | h0) | rfl | h0
    · exact Or.inl rfl
    · exact Or.inl (hw c)
    · exact Or.inl (hw content)
    · simp at h0
    · exact Or.inr hfin
    · simp at h0
  · intro st hst
    rw [htr, List.dropLast_concat] at hst
    simp only [List.mem_cons, List.mem_append, List.mem_map,
      List.mem_singleton] at hst
    rcases hst with rfl | ⟨c, _, rfl⟩ | rfl | h0
    · rfl
    · exact hw c
    · exact hw content
    · simp at h0

/-- A filesystem holding one user document, for the C1 witness. -/
def fsC1 : FileSys := fun q => if q = "users/7.json" then some "old" else none

/-- C1 witness: a concrete write through the scratch directory. -/
theorem claim_C1_witness :
    tmpName "7.json" 1700000000000 ≠ "users/7.json"
      ∧ atomic_write fsC1 (tmpName "7.json" 1700000000000) "users/7.json"
          "new" "users/7.json" = some "new" :=
  ⟨by decide,
    (claim_C1 fsC1 (tmpName "7.json" 1700000000000) "users/7.json" "new"
      ["par", "part"] (by decide)).2.2⟩

/-- C3: for both remote-call entry points, a recognized provider fault on
attempt 1 followed by success on attempt 2 returns the success result after
exactly one delay of `0.8 × 1` seconds; a non-retryable fault
(`FailedPrecondition`, region disallowed) fails immediately as
`regionBlocked` with zero retry delays; two consecutive recognized provider
faults fail as `apiError` and two consecutive unrecognized faults as
`unknownError`, each after the single `0.8` delay of the one retry; and in
every case the result is determined by the first two attempt outcomes (at
most 2 total attempts) and is a classified value of the closed error
taxonomy — no raw provider exception crosses the boundary. -/
theorem claim_C3 (chat : Nat) (t : String) (rest : List GemOutcome) :
    (send_chat_message (.apiCallError :: .success t :: rest) 0 []
        = some (.ok t, [(0.8 : ℚ)])
      ∧ start_chat_and_answer_first chat (.apiCallError :: .success t :: rest) 0 []
        = some (.ok (chat, t), [(0.8 : ℚ)]))
    ∧ (send_chat_message (.failedPrecondition :: rest) 0 []
        = some (.error .regionBlocked, [])
      ∧ start_chat_and_answer_first chat (.failedPrecondition :: rest) 0 []
        = some (.error .regionBlocked, []))
    ∧ (send_chat_message (.apiCallError :: .apiCallError :: rest) 0 []
        = some (.error .apiError, [(0.8 : ℚ)])
      ∧ start_chat_and_answer_first chat (.apiCallError :: .apiCallError :: rest) 0 []
        = some (.error .apiError, [(0.8 : ℚ)]))
    ∧ (send_chat_message (.otherError :: .otherError :: rest) 0 []
        = some (.error .unknownError, [(0.8 : ℚ)])
      ∧ start_chat_and_answer_first chat (.otherError :: .otherError :: rest) 0 []
        = some (.error .unknownError, [(0.8 : ℚ)]))
    ∧ (∀ o1 o2 rest2,
        send_chat_message (o1 :: o2 :: rest2) 0 []
            = send_chat_message [o1, o2] 0 []
          ∧ (send_chat_message [o1, o2] 0 []).isSome = true
          ∧ start_chat_and_answer_first chat (o1 :: o2 :: rest2) 0 []
            = start_chat_and_answer_first chat [o1, o2] 0 []
          ∧ (start_chat_and_answer_first chat [o1, o2] 0 []).isSome = true) := by
  refine ⟨⟨?_, ?_⟩, ⟨?_, ?_⟩, ⟨?_, ?_⟩, ⟨?_, ?_⟩, ?_⟩
  · norm_num [send_chat_message]
  · norm_num [start_chat_and_answer_first]
  · norm_num [send_chat_message]
  · norm_num [start_chat_and_answer_first]
  · norm_num [send_chat_message]
  · norm_num [start_chat_and_answer_first]
  · norm_num [send_chat_message]
  · norm_num [start_chat_and_answer_first]
  · intro o1 o2 rest2
    cases o1 <;> cases o2 <;>
      simp [send_chat_message, start_chat_and_answer_first]

/-- C7: `SessionManager.get` returns absent when `now` minus the session's
`last_activity_at` exceeds the idle timeout and also removes the entry, so
a subsequent `get` (at any time) returns absent again; within the timeout
(including a session that was just `set`) it returns the session and leaves
the manager unchanged. -/
theorem claim_C7 (m : SessionManager) (now now2 : ℤ) (uid : Nat) :
    (m.sessions uid = none → m.get now uid = (none, m))
    ∧ (∀ s, m.sessions uid = some s →
        (m.idle_seconds < now - s.last_activity_at →
          (m.get now uid).1 = none
          ∧ ∀ t, ((m.get now uid).2).get t uid = (none, (m.get now uid).2))
        ∧ (now - s.last_activity_at ≤ m.idle_seconds →
          m.get now uid = (some s, m)))
    ∧ (∀ s, now2 - s.last_activity_at ≤ m.idle_seconds →
        ((m.set uid s).get now2 uid).1 = some s) := by
  refine ⟨?_, ?_, ?_⟩
  · intro h
    unfold SessionManager.get
    simp [h]
  · intro s hs
    constructor
    · intro hlt
      have hev : m.get now uid
          = (none, { m with sessions :=
              fun c => if c == uid then none else m.sessions c }) := by
        unfold SessionManager.get
        simp only [hs]
        rw [if_pos hlt]
      rw [hev]
      refine ⟨rfl, fun t => ?_⟩
      unfold SessionManager.get
      simp
    · exact fun hle => get_hit m now uid s hs hle
  · intro s hle
    rw [get_hit (m.set uid s) now2 uid s (set_sessions_self m uid s) hle]

/-- The session used in the C7 witness. -/
def sessC7 : ActiveSession := ⟨"d1", 7, 0, ⟨"f", 1, 1, 9, "image/jpeg"⟩, 2⟩

/-- The manager used in the C7 witness: idle timeout 600 s, one session
whose last activity was at time 0. -/
def mgrC7 : SessionManager :=
  ⟨fun c => if c == 1 then some sessC7 else none, 600⟩

/-- C7 witness: at time 601 the session is evicted and a second `get`
still returns absent; at time 300 it is returned unchanged. -/
theorem claim_C7_witness :
    ((mgrC7.get 601 1).1 = none
        ∧ ((mgrC7.get 601 1).2).get 601 1 = (none, (mgrC7.get 601 1).2))
      ∧ mgrC7.get 300 1 = (some sessC7, mgrC7) :=
  ⟨⟨(((claim_C7 mgrC7 601 0 1).2.1 sessC7 rfl).1 (by decide)).1,
    (((claim_C7 mgrC7 601 0 1).2.1 sessC7 rfl).1 (by decide)).2 601⟩,
    ((claim_C7 mgrC7 300 0 1).2.1 sessC7 rfl).2 (by decide)⟩


/-- C4 (amended): `prune_old` removes exactly those dialog files whose
`started_at` is nonzero and precedes `now - days*86400` (the code's
`if started and started < cutoff` treats a zero timestamp as missing and
keeps the file), returns the number of files removed, leaves every other
dialog file untouched, and for every user whose profile exists rewrites
the profile with exactly the index entries dropped whose dialog id matches
the recorded (nonempty) dialog id of a removed file owned by that user. -/
theorem claim_C4 (st : JsonStore) (days : Nat) (now : ℤ) :
    ((prune_old st days now).1.dialogs
        = st.dialogs.filter
            (fun f => !(pruneFileHit (now - (days : ℤ) * 86400) f)))
    ∧ ((prune_old st days now).2
        = (st.dialogs.filter (pruneFileHit (now - (days : ℤ) * 86400))).length)
    ∧ (∀ f ∈ st.dialogs, f.data.started_at ≠ 0 →
        f.data.started_at < now - (days : ℤ) * 86400 →
        f ∉ (prune_old st days now).1.dialogs)
    ∧ (∀ f ∈ st.dialogs,
        ¬(f.data.started_at ≠ 0 ∧ f.data.started_at < now - (days : ℤ) * 86400) →
        f ∈ (prune_old st days now).1.dialogs)
    ∧ (∀ c, load_user (prune_old st days now).1 c
        = (load_user st c).map fun u =>
            { u with dialogs_index :=
                u.dialogs_index.filter (fun e => decide (e.dialog_id ∉ removedIds (now - (days : ℤ) * 86400) st.dialogs c)) }) := by
  obtain ⟨h1, h2, h3⟩ := prune_old_parts st days now
  refine ⟨h1, h2, ?_, ?_, h3⟩
  · intro f hf hne hlt hmem
    rw [h1] at hmem
    rcases List.mem_filter.mp hmem with ⟨_, hkexp⟩
    simp only [pruneFileHit, Bool.not_eq_true', decide_eq_false_iff_not] at hkexp
    exact hkexp ⟨hne, hlt⟩
  · intro f hf hno
    rw [h1]
    refine List.mem_filter.mpr ⟨hf, ?_⟩
    simp only [pruneFileHit, Bool.not_eq_true', decide_eq_false_iff_not]
    exact hno

/-- A dialog document with a given path id, internal id and start time,
for the C4 counterexample and witnesses. -/
def mkDialogAt (cid : Nat) (did : String) (internal : String) (t : ℤ) : Dialog :=
  { freshDialog cid did "gemini-1.5-flash" ⟨"f", 1, 1, 9, "image/jpeg"⟩
      (some "c") t with dialog_id := internal }

/-- A profile for user 1 whose index holds one entry for dialog `i`. -/
def profC4 (i : String) : UserProfile :=
  ⟨1, none, none, none, 0, 0, "ru", [⟨i, 50, none, "", true, 0, 0, true⟩], ⟨0, 0, 0⟩⟩

/-- Store with one dialog file whose `started_at` is `0`. -/
def stC4a : JsonStore := ⟨[profC4 "d0"], [⟨1, "d0", mkDialogAt 1 "d0" "d0" 0⟩]⟩

/-- Store with one old dialog file whose document carries an empty
`dialog_id`. -/
def stC4b : JsonStore := ⟨[profC4 "d1"], [⟨1, "d1", mkDialogAt 1 "d1" "" 50⟩]⟩

/-- C4 counterexample: with `days = 1`, `now = 86500` (cutoff `100`), a
dialog whose `started_at = 0` precedes the cutoff yet is not removed and
not counted; and a removed dialog whose document carries an empty
`dialog_id` leaves its index entry (`"d1"`) in the owner's profile. -/
theorem claim_C4_counterexample :
    ((mkDialogAt 1 "d0" "d0" 0).started_at < 86500 - (1 : ℤ) * 86400
      ∧ (prune_old stC4a 1 86500).2 = 0
      ∧ (prune_old stC4a 1 86500).1.dialogs = [⟨1, "d0", mkDialogAt 1 "d0" "d0" 0⟩])
    ∧ ((prune_old stC4b 1 86500).2 = 1
      ∧ (prune_old stC4b 1 86500).1.dialogs = []
      ∧ (load_user (prune_old stC4b 1 86500).1 1).map
          (fun u => u.dialogs_index.map (·.dialog_id)) = some ["d1"]) := by
  decide

/-- Store for the C4 witness: one fresh and one stale dialog for user 1. -/
def stC4w : JsonStore :=
  ⟨[profC4 "dnew"],
    [⟨1, "dold", mkDialogAt 1 "dold" "dold" 50⟩,
      ⟨1, "dnew", mkDialogAt 1 "dnew" "dnew" 86450⟩]⟩

/-- C4 witness: on a concrete store the amended claim removes exactly the
stale dialog, keeps the fresh one, and reports one removal. -/
theorem claim_C4_witness :
    (⟨1, "dold", mkDialogAt 1 "dold" "dold" 50⟩ : DialogFile) ∈ stC4w.dialogs
      ∧ (mkDialogAt 1 "dold" "dold" 50).started_at ≠ 0
      ∧ (mkDialogAt 1 "dold" "dold" 50).started_at < 86500 - (1 : ℤ) * 86400
      ∧ (⟨1, "dold", mkDialogAt 1 "dold" "dold" 50⟩ : DialogFile)
          ∉ (prune_old stC4w 1 86500).1.dialogs
      ∧ (⟨1, "dnew", mkDialogAt 1 "dnew" "dnew" 86450⟩ : DialogFile)
          ∈ (prune_old stC4w 1 86500).1.dialogs :=
  ⟨by decide, by decide, by decide,
    (claim_C4 stC4w 1 86500).2.2.1 _ (by decide) (by decide) (by decide),
    (claim_C4 stC4w 1 86500).2.2.2.1 _ (by decide) (by decide)⟩

/-- C5 (amended): for every user and every nonnegative limit, `list_dialogs`
returns the index entries stably sorted by `started_at` descending and
truncated to at most `limit` entries; when `limit` is at least the index
size it returns the whole sorted index, a permutation of the full index;
for a user with no profile it returns the empty list.  (A negative limit
follows Python slice semantics, dropping that many entries from the end,
so the original "for every limit" reading fails.) -/
theorem claim_C5 (st : JsonStore) (c : Nat) (limit : ℤ) :
    (load_user st c = none → list_dialogs st c limit = [])
    ∧ List.Pairwise (fun a b => b.started_at ≤ a.started_at)
        (list_dialogs st c limit)
    ∧ (∀ u, load_user st c = some u →
        (0 ≤ limit → ((list_dialogs st c limit).length : ℤ) ≤ limit)
        ∧ ((u.dialogs_index.length : ℤ) ≤ limit →
            list_dialogs st c limit = sortIndexDesc u.dialogs_index
            ∧ (list_dialogs st c limit).Perm u.dialogs_index)) := by
  have hsorted : ∀ idx, List.Pairwise (fun a b => b.started_at ≤ a.started_at)
      (sortIndexDesc idx) := by
    intro idx
    haveI : IsTotal DialogIndexEntry (fun a b => b.started_at ≤ a.started_at) :=
      ⟨fun a b => le_total b.started_at a.started_at⟩
    haveI : IsTrans DialogIndexEntry (fun a b => b.started_at ≤ a.started_at) :=
      ⟨fun _ _ _ hab hbc => le_trans hbc hab⟩
    exact List.sorted_insertionSort _ idx
  have hslice : ∀ (l : List DialogIndexEntry), (pySliceTo l limit).Sublist l := by
    intro l
    unfold pySliceTo
    by_cases h0 : 0 ≤ limit
    · rw [if_pos h0]
      exact List.take_sublist _ _
    · rw [if_neg h0]
      exact List.take_sublist _ _
  refine ⟨?_, ?_, ?_⟩
  · intro h
    unfold list_dialogs
    simp [h]
  · unfold list_dialogs
    rcases hu : load_user st c with _ | u
    · simp
    · simp only
      exact List.Pairwise.sublist (hslice _) (hsorted u.dialogs_index)
  · intro u hu
    have hlen : (sortIndexDesc u.dialogs_index).length = u.dialogs_index.length :=
      (List.perm_insertionSort _ u.dialogs_index).length_eq
    constructor
    · intro h0
      unfold list_dialogs
      simp only [hu]
      unfold pySliceTo
      rw [if_pos h0]
      have := List.length_take_le limit.toNat (sortIndexDesc u.dialogs_index)
      have h2 : ((list_dialogs st c limit).length : ℤ)
          ≤ (limit.toNat : ℤ) := by
        unfold list_dialogs
        simp only [hu]
        unfold pySliceTo
        rw [if_pos h0]
        exact_mod_cast this
      calc ((List.take limit.toNat (sortIndexDesc u.dialogs_index)).length : ℤ)
          ≤ (limit.toNat : ℤ) := by exact_mod_cast this
        _ = limit := Int.toNat_of_nonneg h0
    · intro hge
      have h0 : 0 ≤ limit := le_trans (by positivity) hge
      have hfull : list_dialogs st c limit = sortIndexDesc u.dialogs_index := by
        unfold list_dialogs
        simp only [hu]
        unfold pySliceTo
        rw [if_pos h0]
        refine List.take_of_length_le ?_
        rw [hlen]
        omega
      refine ⟨hfull, ?_⟩
      rw [hfull]
      exact List.perm_insertionSort _ u.dialogs_index

/-- Two index entries (started at 5 and 9) for the C5 stores. -/
def entC5a : DialogIndexEntry := ⟨"a", 5, none, "", true, 0, 0, true⟩

def entC5b : DialogIndexEntry := ⟨"b", 9, none, "", true, 0, 0, true⟩

/-- Store whose single user has a two-entry index, for C5. -/
def stC5 : JsonStore := ⟨[⟨1, none, none, none, 0, 0, "ru", [entC5a, entC5b], ⟨0, 0, 0⟩⟩], []⟩

/-- C5 counterexample: with the negative limit `-1` the result has one
entry (Python drops one entry from the end), which is not "at most `-1`
entries" — the claim fails for negative limits. -/
theorem claim_C5_counterexample :
    (list_dialogs stC5 1 (-1)).length = 1
      ∧ ¬(((list_dialogs stC5 1 (-1)).length : ℤ) ≤ -1) := by
  decide

/-- C5 witness: on the concrete store, limit 1 truncates the descending
sorted index and limit 2 returns the whole index sorted. -/
theorem claim_C5_witness :
    ((list_dialogs stC5 1 1).length : ℤ) ≤ 1
      ∧ list_dialogs stC5 1 2 = sortIndexDesc [entC5a, entC5b]
      ∧ (list_dialogs stC5 1 2).Perm [entC5a, entC5b]
      ∧ list_dialogs stC5 1 1 = [entC5b] :=
  ⟨(((claim_C5 stC5 1 1).2.2 _ rfl).1 (by decide)),
    (((claim_C5 stC5 1 2).2.2 _ rfl).2 (by decide)).1,
    (((claim_C5 stC5 1 2).2.2 _ rfl).2 (by decide)).2,
    by decide⟩


/-- C6: `append_message` fails with `FileNotFoundError` when the dialog
file is absent — and the exception is raised before any write, so nothing
changes; when the dialog file exists it appends the message to the
dialog's message list, rewrites the dialog file (through the atomic
helper), leaves every other path untouched, and increments the owning
user's `total_requests` counter by exactly one (the counter exists when
the owner's profile does). -/
theorem claim_C6 (st : JsonStore) (cid : Nat) (did : String) (msg : Message) :
    (lookupDialog st cid did = none →
      append_message st cid did msg = .error (.notFound (dialogPathStr cid did)))
    ∧ (∀ d, lookupDialog st cid did = some d →
        ∃ st1, append_message st cid did msg = .ok st1
          ∧ lookupDialog st1 cid did
              = some { d with messages := d.messages ++ [msg] }
          ∧ (∀ c2 i2, ¬(cid = c2 ∧ did = i2) →
              lookupDialog st1 c2 i2 = lookupDialog st c2 i2)
          ∧ (∀ u, load_user st cid = some u →
              (load_user st1 cid).map (fun v => v.stats.total_requests)
                  = some (u.stats.total_requests + 1)
              ∧ ∀ c2, c2 ≠ cid → load_user st1 c2 = load_user st c2)) := by
  constructor
  · exact append_message_absent st cid did msg
  · intro d hd
    obtain ⟨st1, ha, h1, h2, _h3, h4⟩ := append_message_ok st cid did msg d hd
    refine ⟨st1, ha, h1, h2, fun u hu => ⟨?_, (h4 u hu).2⟩⟩
    rw [(h4 u hu).1]
    rfl

/-- The message appended in the C6 witness. -/
def msgC6 : Message := ⟨3, 120, "user", "text", "hello", 0, 0, none⟩

/-- Store for the C6 witness: user 1 with 2 recorded requests and one
dialog file at `(1, "d")`. -/
def stC6 : JsonStore :=
  ⟨[⟨1, none, none, none, 0, 0, "ru", [], ⟨2, 1, 0⟩⟩],
    [⟨1, "d", mkDialogAt 1 "d" "d" 100⟩]⟩

/-- Store for the C6 witness, absent-dialog half. -/
def stC6e : JsonStore := ⟨[⟨1, none, none, none, 0, 0, "ru", [], ⟨2, 1, 0⟩⟩], []⟩

/-- C6 witness: on the absent path the call fails with `FileNotFoundError`;
on the present path it appends and bumps `total_requests` from 2 to 3. -/
theorem claim_C6_witness :
    (lookupDialog stC6e 1 "d" = none
      ∧ append_message stC6e 1 "d" msgC6
          = .error (.notFound (dialogPathStr 1 "d")))
    ∧ (lookupDialog stC6 1 "d" = some (mkDialogAt 1 "d" "d" 100)
      ∧ ∃ st1, append_message stC6 1 "d" msgC6 = .ok st1
          ∧ lookupDialog st1 1 "d"
              = some { mkDialogAt 1 "d" "d" 100 with
                  messages := (mkDialogAt 1 "d" "d" 100).messages ++ [msgC6] }
          ∧ (∀ c2 i2, ¬(1 = c2 ∧ "d" = i2) →
              lookupDialog st1 c2 i2 = lookupDialog stC6 c2 i2)
          ∧ (∀ u, load_user stC6 1 = some u →
              (load_user st1 1).map (fun v => v.stats.total_requests)
                  = some (u.stats.total_requests + 1)
              ∧ ∀ c2, c2 ≠ 1 → load_user st1 c2 = load_user stC6 c2)) :=
  ⟨⟨by decide, (claim_C6 stC6e 1 "d" msgC6).1 (by decide)⟩,
    ⟨by decide, (claim_C6 stC6 1 "d" msgC6).2 (mkDialogAt 1 "d" "d" 100) (by decide)⟩⟩

/-- C8 (amended): `open_dialog` writes a new `Dialog` record with an empty
message list at `(user, dialog id)` and leaves every other path untouched;
it does not fail when a record already exists at that path — the existing
record is silently overwritten (the caller must supply a fresh id). -/
theorem claim_C8 (st : JsonStore) (cid : Nat) (did : String) (model : String)
    (meta : ImageMetaIn) (cap : Option String) (now : ℤ) :
    lookupDialog (open_dialog st cid did model meta cap now) cid did
        = some (freshDialog cid did model meta cap now)
      ∧ (freshDialog cid did model meta cap now).messages = []
      ∧ (∀ c2 i2, ¬(cid = c2 ∧ did = i2) →
          lookupDialog (open_dialog st cid did model meta cap now) c2 i2
            = lookupDialog st c2 i2) := by
  refine ⟨lookupDialog_open_self st cid did model meta cap now, rfl, ?_⟩
  intro c2 i2 hne
  unfold open_dialog lookupDialog
  rw [findDialog_putDialog_other _ _ _ _ _ _ hne]

/-- Store for the C8 counterexample: a dialog already exists at `(1, "d")`
and its transcript is nonempty. -/
def stC8 : JsonStore :=
  ⟨[], [⟨1, "d", { mkDialogAt 1 "d" "d" 100 with messages := [msgC6] }⟩]⟩

/-- C8 counterexample: a record already exists at `(1, "d")` (with one
message), yet `open_dialog` does not fail — it returns a store where the
old record has been replaced by the fresh empty-transcript record. -/
theorem claim_C8_counterexample :
    (lookupDialog stC8 1 "d").map (·.messages.length) = some 1
      ∧ (lookupDialog (open_dialog stC8 1 "d" "m" ⟨"f", 1, 1, 9, "image/jpeg"⟩ (some "c") 5) 1 "d").map (·.messages)
          = some []
      ∧ lookupDialog (open_dialog stC8 1 "d" "m" ⟨"f", 1, 1, 9, "image/jpeg"⟩ (some "c") 5) 1 "d"
          ≠ lookupDialog stC8 1 "d" := by
  decide

/-- C8 witness: the amended claim applied at a concrete overwrite. -/
theorem claim_C8_witness :
    lookupDialog (open_dialog stC8 1 "d" "m" ⟨"f", 1, 1, 9, "image/jpeg"⟩ (some "c") 5) 1 "d"
        = some (freshDialog 1 "d" "m" ⟨"f", 1, 1, 9, "image/jpeg"⟩ (some "c") 5)
      ∧ ¬(1 = 2 ∧ "d" = "d")
      ∧ lookupDialog (open_dialog stC8 1 "d" "m" ⟨"f", 1, 1, 9, "image/jpeg"⟩ (some "c") 5) 2 "d"
          = lookupDialog stC8 2 "d" :=
  ⟨(claim_C8 stC8 1 "d" "m" ⟨"f", 1, 1, 9, "image/jpeg"⟩ (some "c") 5).1,
    by decide,
    (claim_C8 stC8 1 "d" "m" ⟨"f", 1, 1, 9, "image/jpeg"⟩ (some "c") 5).2.2 2 "d" (by decide)⟩

/-- C10: `delete_dialog` never raises: it returns `false` when the dialog
file is absent and `true` when it existed; afterwards the file at that
path is gone; and whenever the user's profile exists the profile is
rewritten with all index entries for that dialog id removed — including a
stale entry whose backing file no longer exists. -/
theorem claim_C10 (st : JsonStore) (cid : Nat) (did : String) :
    ((delete_dialog st cid did).2 = (findDialog st.dialogs cid did).isSome)
    ∧ (lookupDialog st cid did = none → (delete_dialog st cid did).2 = false)
    ∧ lookupDialog (delete_dialog st cid did).1 cid did = none
    ∧ (∀ u, load_user st cid = some u →
        (load_user (delete_dialog st cid did).1 cid).map (·.dialogs_index)
          = some (u.dialogs_index.filter fun e => decide (e.dialog_id ≠ did)))
    ∧ (load_user st cid = none →
        load_user (delete_dialog st cid did).1 cid = none) := by
  have hfilter : findDialog (st.dialogs.filter
      (fun f => decide (¬(f.chat_id = cid ∧ f.dialog_id = did)))) cid did
      = none := findDialog_filter_out st.dialogs cid did
  have hlf : ∀ st2 : JsonStore, findDialog st2.dialogs cid did = none →
      lookupDialog st2 cid did = none := by
    intro st2 h2
    unfold lookupDialog
    rw [h2]
    rfl
  have hiss : ∀ h2 : lookupDialog st cid did = none,
      (findDialog st.dialogs cid did).isSome = false := by
    intro h2
    have h3 : (findDialog st.dialogs cid did).map (·.data) = none := h2
    rw [Option.map_eq_none'.mp h3]
    rfl
  simp only [delete_dialog]
  by_cases hex : (findDialog st.dialogs cid did).isSome = true
  · rw [if_pos hex]
    rcases hu : load_user st cid with _ | u
    · have hu1 : load_user ⟨st.users, st.dialogs.filter
          (fun f => decide (¬(f.chat_id = cid ∧ f.dialog_id = did)))⟩ cid
          = none := hu
      simp only [hu1]
      refine ⟨trivial, hiss, ?_, ?_, fun _ => trivial⟩
      · exact hlf _ hfilter
      · intro u2 hu2
        exact Option.noConfusion hu2
    · have hch : u.chat_id = cid := load_user_chat_id hu
      have hu1 : load_user ⟨st.users, st.dialogs.filter
          (fun f => decide (¬(f.chat_id = cid ∧ f.dialog_id = did)))⟩ cid
          = some u := hu
      simp only [hu1]
      refine ⟨trivial, hiss, ?_, ?_, ?_⟩
      · exact hlf _ hfilter
      · intro u2 hu2
        cases hu2
        rw [load_user_save_self_at _
          { u with dialogs_index :=
              u.dialogs_index.filter (fun e => decide (e.dialog_id ≠ did)) }
          cid hch]
        rfl
      · intro hnone
        exact Option.noConfusion hnone
  · have hnofind : findDialog st.dialogs cid did = none := by
      rcases hfd : findDialog st.dialogs cid did with _ | f
      · rfl
      · rw [hfd] at hex
        simp at hex
    rw [if_neg hex]
    rcases hu : load_user st cid with _ | u
    · refine ⟨rfl, hiss, ?_, ?_, fun _ => hu⟩
      · exact hlf st hnofind
      · intro u2 hu2
        exact Option.noConfusion hu2
    · have hch : u.chat_id = cid := load_user_chat_id hu
      refine ⟨rfl, hiss, ?_, ?_, ?_⟩
      · exact hlf _ hnofind
      · intro u2 hu2
        cases hu2
        rw [load_user_save_self_at _
          { u with dialogs_index :=
              u.dialogs_index.filter (fun e => decide (e.dialog_id ≠ did)) }
          cid hch]
        rfl
      · intro hnone
        exact Option.noConfusion hnone

/-- Profile for the C10 witness: user 1's index holds a stale entry for
dialog `"d"` (no backing file) and a live-looking entry `"e"`. -/
def uC10 : UserProfile :=
  ⟨1, none, none, none, 0, 0, "ru",
    [⟨"d", 50, none, "", true, 0, 0, true⟩, ⟨"e", 60, none, "", true, 0, 0, true⟩],
    ⟨0, 0, 0⟩⟩

/-- Store for the C10 witness: no dialog files at all. -/
def stC10 : JsonStore := ⟨[uC10], []⟩

/-- C10 witness: deleting a dialog whose file is absent returns `false`
without raising, and still cleans the stale index entry. -/
theorem claim_C10_witness :
    lookupDialog stC10 1 "d" = none
      ∧ (delete_dialog stC10 1 "d").2 = false
      ∧ (load_user (delete_dialog stC10 1 "d").1 1).map (·.dialogs_index)
          = some (uC10.dialogs_index.filter fun e => decide (e.dialog_id ≠ "d"))
      ∧ (load_user (delete_dialog stC10 1 "d").1 1).map
          (fun u => u.dialogs_index.map (·.dialog_id)) = some ["e"] :=
  ⟨by decide, (claim_C10 stC10 1 "d").2.1 (by decide),
    (claim_C10 stC10 1 "d").2.2.2.1 uC10 (by decide), by decide⟩

/-- A full dialog run as `handle_message` produces it: the photo branch
once, then the text branch for each continuation. -/
def runDialog (bs : BotState) (uid : Nat) (un fn ln : Option String)
    (did : String) (meta : ImageMetaIn) (caption : Option String) (ch : Nat)
    (answer : String) (ret : Nat) (t0 : ℤ) (conts : List ContTurn) :
    Except StoreError BotState :=
  match imageTurn bs uid un fn ln did meta caption ch answer ret t0 with
  | .error e => .error e
  | .ok bs0 => runConts uid un fn ln ret bs0 conts

/-- C2: for every sequence of turns handled for one dialog — the image
turn followed by any number of text continuations — the `message_id`
values appended to that dialog's file are exactly `1, 2, ..., N` in call
order with no gaps and no reordering, and the roles alternate `user`,
`assistant`, two per completed turn (a continuation whose remote call
fails appends nothing and bumps nothing).  The hypotheses say the turns
fall within the retention window of the dialog's start (so the
opportunistic prune never deletes the open dialog) and within the idle
timeout of the dialog's start (the cached session's `last_activity_at`
stays at the dialog start time, see C9). -/
theorem claim_C2 (bs : BotState) (uid : Nat) (un fn ln : Option String)
    (did : String) (meta : ImageMetaIn) (caption : Option String) (ch : Nat)
    (answer : String) (ret : Nat) (t0 : ℤ) (conts : List ContTurn)
    (hkeep : ∀ c ∈ conts, c.now - (ret : ℤ) * 86400 ≤ t0)
    (hidle : ∀ c ∈ conts, c.now - t0 ≤ bs.sessions.idle_seconds) :
    ∃ bs1, runDialog bs uid un fn ln did meta caption ch answer ret t0 conts
        = .ok bs1
      ∧ (lookupDialog bs1.store uid did).map
            (fun d => (d.messages.map (·.message_id), d.messages.map (·.role)))
          = some (List.range' 1 (2 * (1 + countSome conts)),
              rolePairs (1 + countSome conts)) := by
  obtain ⟨bs0, himg, hInv0, hidle0⟩ :=
    imageTurn_ok bs uid un fn ln did meta caption ch answer ret t0
  obtain ⟨bs1, hrun, hInv1, _⟩ :=
    runConts_ok uid un fn ln ret did ch meta t0 bs.sessions.idle_seconds
      conts bs0 1 hInv0 hidle0 hkeep hidle
  refine ⟨bs1, ?_, ?_⟩
  · unfold runDialog
    simp only [himg]
    exact hrun
  · obtain ⟨⟨d, hld, _, hids, hroles⟩, _⟩ := hInv1
    rw [hld, Option.map_some', hids, hroles]

/-- Image metadata used by the C2 witness and C9. -/
def metaC2 : ImageMetaIn := ⟨"f", 640, 480, 12345, "image/jpeg"⟩

/-- Fresh bot state: empty store, empty sessions, 10-minute idle timeout. -/
def bsC2 : BotState := ⟨⟨[], []⟩, SessionManager.mk0 10⟩

/-- C2 witness continuations: a success, a remote failure, a success. -/
def contsC2 : List ContTurn :=
  [⟨"and its color?", some "red", 200⟩, ⟨"flaky", none, 300⟩,
    ⟨"again", some "ok", 400⟩]

/-- C2 witness: a concrete dialog run — image turn at time 100 plus three
continuations of which two succeed — yields ids `1..6` with alternating
roles. -/
theorem claim_C2_witness :
    (∀ c ∈ contsC2, c.now - (30 : ℤ) * 86400 ≤ 100)
      ∧ (∀ c ∈ contsC2, c.now - (100 : ℤ) ≤ bsC2.sessions.idle_seconds)
      ∧ ∃ bs1, runDialog bsC2 1 none none none "d1" metaC2
            (some "what is this") 7 "a1" 30 100 contsC2 = .ok bs1
          ∧ (lookupDialog bs1.store 1 "d1").map
                (fun d => (d.messages.map (·.message_id), d.messages.map (·.role)))
              = some (List.range' 1 (2 * (1 + countSome contsC2)),
                  rolePairs (1 + countSome contsC2)) :=
  ⟨by decide, by decide,
    claim_C2 bsC2 1 none none none "d1" metaC2 (some "what is this") 7 "a1"
      30 100 contsC2 (by decide) (by decide)⟩

/-- The C9 run: an image turn at time 0 starts dialog `d1`; a text
continuation at time 300 succeeds (the remote call returns and two
messages are appended). -/
def runC9 : Except StoreError BotState :=
  runDialog ⟨⟨[], []⟩, SessionManager.mk0 10⟩ 1 none none none "d1" metaC2
    (some "q") 7 "a1" 30 0 [⟨"next", some "a2", 300⟩]

/-- C9 (code bug): the claim says every text continuation refreshes the
cached session's last-activity timestamp; the code never writes
`last_activity_at` after creation (neither `SessionManager.get` nor the
text branch of `handle_message` touches it — only `message_seq` is
bumped).  Concretely: after the successful continuation at time 300 the
stored session still carries `last_activity_at = 0`, so a `get` at time
601 — only 301 s after the last activity and within the 600 s idle
timeout — evicts the session, contradicting the claim.  The field's name,
the `# idle timeout` comment, and the spec's "refreshed on every
continuation" mark the refresh as the intent, so this is a code bug. -/
theorem claim_C9 :
    (runC9.toOption.bind fun bs => lookupDialog bs.store 1 "d1").map
        (fun d => d.messages.map (·.message_id)) = some [1, 2, 3, 4]
    ∧ (runC9.toOption.bind fun bs => bs.sessions.sessions 1).map
        (·.last_activity_at) = some 0
    ∧ ((601 : ℤ) - 300 ≤ (SessionManager.mk0 10).idle_seconds)
    ∧ (runC9.toOption.map fun bs => (bs.sessions.get 601 1).1) = some none := by
  decide

end TgBot
